import Mathlib

/-!
Verification of the resilient API-client core of a command-line client for a
hosted conversational-AI HTTP API (Go sources).  The Go code is shallowly
embedded: pure functions become Lean functions, the stateful key-rotation
manager becomes explicit state passing on a `Config`-like structure,
`time.Duration`/float arithmetic is modelled exactly over `ℚ`/`ℤ`
(nanoseconds), and the random draw of `rand.Float64()` becomes an explicit
parameter `r ∈ [0,1)`.
-/

namespace PerplexityCli

/-! ### String helpers

Embeddings of Go's `strings.Contains` / `strings.HasPrefix` /
`strings.ToLower` on the character lists underlying Lean strings. -/

/-- ASCII lowercase of one character; agrees with Go `unicode.ToLower` on
the ASCII range, which covers every pattern and message in this
development. -/
def lowerChar (c : Char) : Char :=
  if 65 ≤ c.toNat ∧ c.toNat ≤ 90 then Char.ofNat (c.toNat + 32) else c

/-- Go `strings.ToLower` (ASCII fragment). -/
def strToLower (s : String) : String := ⟨s.data.map lowerChar⟩

/-- `p` is a leading segment of `s` (character-by-character comparison). -/
def listStarts : List Char → List Char → Bool
  | [], _ => true
  | _ :: _, [] => false
  | p :: ps, c :: cs => p == c && listStarts ps cs

/-- `pat` occurs as a contiguous segment of the second list
(Go `strings.Contains` on the underlying characters). -/
def listHasSeg (pat : List Char) : List Char → Bool
  | [] => pat.isEmpty
  | c :: cs => listStarts pat (c :: cs) || listHasSeg pat cs

/-- Go `strings.Contains s sub`. -/
def strContains (s sub : String) : Bool :=
  listHasSeg sub.toList s.toList

/-! ### config package: rotation constants and `shouldRotateKey`

From `internal/config`:
`var RotatableErrorCodes = []int{401, 403, 429}` and the credit-exhaustion
message patterns. -/

/-- Error codes that should trigger key rotation (401, 403, 429; 402 is
deliberately not included). -/
def RotatableErrorCodes : List Int := [401, 403, 429]

/-- Error message patterns that indicate credit exhaustion. -/
def CreditExhaustedPatterns : List String :=
  [ "insufficient credit",
    "credit exhausted",
    "credit limit",
    "out of credit",
    "no credit",
    "balance exhausted",
    "insufficient balance",
    "quota exceeded",
    "quota limit",
    "rate limit exceeded",
    "account blocked",
    "key blocked",
    "api key blocked" ]

/-- `Client.shouldRotateKey` from `internal/api/client.go`: rotate when the
status code is in `RotatableErrorCodes`, or the lowercased message contains
one of the `CreditExhaustedPatterns`. -/
def shouldRotateKey (statusCode : Int) (errorMsg : String) : Bool :=
  RotatableErrorCodes.contains statusCode ||
    CreditExhaustedPatterns.any (fun pattern => strContains (strToLower errorMsg) pattern)

/-! ### config package: key rotation state machine

State of a `config.Config` restricted to the fields the rotation logic
reads and writes (`APIKeys`, `CurrentKeyIndex`, `APIKey`, `startKeyIndex`;
`startKeyIndex = -1` means "not tracking a cycle"). -/

structure RotState where
  APIKeys : List String
  CurrentKeyIndex : Nat
  APIKey : String
  startKeyIndex : Int
  deriving Repr, DecidableEq

/-- `Config.GetKeyCount`. -/
def GetKeyCount (c : RotState) : Nat := c.APIKeys.length

/-- `Config.RotateKey`: `none` models the `ErrNoAvailableKeys` error return
(the empty-string key returned alongside it is dropped); `some k` models a
successful rotation to key `k`.  The second component is the state after the
call. -/
def RotateKey (c : RotState) : Option String × RotState :=
  if c.APIKeys.length ≤ 1 then
    (none, c)
  else
    -- Track starting position to detect full cycle
    let c1 := if c.startKeyIndex < 0 then { c with startKeyIndex := (c.CurrentKeyIndex : Int) } else c
    let nextIndex := (c1.CurrentKeyIndex + 1) % c1.APIKeys.length
    -- If we've cycled back to start, all keys have been tried
    if (nextIndex : Int) = c1.startKeyIndex then
      (none, { c1 with startKeyIndex := -1 })
    else
      let newKey := c1.APIKeys.getD nextIndex ""
      (some newKey, { c1 with CurrentKeyIndex := nextIndex, APIKey := newKey })

/-- `Config.ResetKeyRotation` (call after a successful request). -/
def ResetKeyRotation (c : RotState) : RotState :=
  { c with startKeyIndex := -1 }

/-! ### retry package

From `internal/retry`.  Durations are modelled as exact rationals counting
nanoseconds (Go computes over `float64` and truncates the final value back to
integer nanoseconds; the interval and ordering claims below are about the
magnitude, so the embedding keeps the exact value).  `rand.Float64()` is an
explicit parameter `r` with `0 ≤ r < 1`. -/

/-- `retry.Config`. -/
structure RetryConfig where
  MaxRetries : Int
  InitialBackoff : ℚ
  MaxBackoff : ℚ
  Multiplier : ℚ
  Jitter : ℚ
  deriving Repr, DecidableEq

/-- `retry.DefaultConfig()`: 3 retries, 500ms initial, 30s max, 2.0×, 0.2
jitter (durations in nanoseconds). -/
def DefaultConfig : RetryConfig :=
  { MaxRetries := 3
    InitialBackoff := 500000000
    MaxBackoff := 30000000000
    Multiplier := 2
    Jitter := 1/5 }

/-- `retry.Config.CalculateBackoff`: attempt ≤ 0 returns the initial backoff
unmodified; otherwise exponential growth, capped at `MaxBackoff`, then a
symmetric jitter perturbation driven by the random draw `r`. -/
def CalculateBackoff (c : RetryConfig) (attempt : Int) (r : ℚ) : ℚ :=
  if attempt ≤ 0 then c.InitialBackoff
  else
    -- Calculate exponential backoff
    let backoff := c.InitialBackoff * c.Multiplier ^ attempt.toNat
    -- Apply maximum backoff cap
    let backoff := if backoff > c.MaxBackoff then c.MaxBackoff else backoff
    -- Apply jitter
    if c.Jitter > 0 then
      let jitterRange := backoff * c.Jitter
      backoff - jitterRange + r * 2 * jitterRange
    else backoff

/-- Errors flowing through the client and retry layers.  `apiErr` is
`*api.APIError` (an HTTP status plus message), `genErr` a plain
`errors.New` / `fmt.Errorf` error carrying only its message, `canceled` is
`context.Canceled`. -/
inductive GoError where
  | apiErr (statusCode : Int) (message : String)
  | genErr (message : String)
  | canceled
  deriving Repr, DecidableEq

/-- The textual fallback patterns of `retry.IsRetryableError`. -/
def retryablePatterns : List String :=
  [ "connection refused",
    "connection reset",
    "connection timed out",
    "no such host",
    "network is unreachable",
    "host is unreachable",
    "temporary failure",
    "try again",
    "i/o timeout",
    "eof",
    "broken pipe",
    "connection closed" ]

/-- `retry.IsRetryableError` restricted to the error shapes of this
embedding: `context.Canceled` is never retryable; `*APIError` and plain
errors carry no typed network signal (they are not `net.Error`, `DNSError`,
`OpError`, `url.Error` or syscall errors), so the Go function falls through
to the case-insensitive message-pattern check. -/
def IsRetryableError : GoError → Bool
  | .canceled => false
  | .apiErr _ msg => retryablePatterns.any (fun pattern => strContains (strToLower msg) pattern)
  | .genErr msg => retryablePatterns.any (fun pattern => strContains (strToLower msg) pattern)

/-- The loop body of `retry.Do`, starting at attempt number `attempt` with
`left` further attempts allowed after this one (`left = MaxRetries - attempt`
on entry).  The operation `op` maps the invocation number to `none`
(success) or `some e` (failure).  The context is a constant flag
`ctxCanceled` (the claims under verification use contexts that never change
mid-call), checked at the top of each iteration exactly as in the source;
with a constant context the cancellation check inside `Config.Wait` can
never fire (the top-of-loop check returns first), so the sleep is elided.
Returns (number of invocations of `op`, final error result, `none` meaning
the Go function returned `nil`). -/
def doLoop (ctxCanceled : Bool) (op : Nat → Option GoError) :
    (attempt : Nat) → (left : Nat) → Nat × Option GoError
  | attempt, left =>
    -- Check context before attempting
    if ctxCanceled then (attempt, some .canceled)
    else
      match op attempt with
      | none => (attempt + 1, none)
      | some e =>
        -- Check if error is retryable
        if IsRetryableError e = false then (attempt + 1, some e)
        else
          match left with
          | 0 => (attempt + 1, some e)        -- attempt == MaxRetries: break, return lastErr
          | left + 1 =>
            -- onRetry callback, then Wait (no-op: context constant and not cancelled here)
            doLoop ctxCanceled op (attempt + 1) left

/-- `retry.Do`.  When `MaxRetries < 0` the loop guard `attempt <= MaxRetries`
fails at once: the body — including its context check — never runs, and the
initial `nil` last-error is returned. -/
def Do (ctxCanceled : Bool) (cfg : RetryConfig) (op : Nat → Option GoError) :
    Nat × Option GoError :=
  if cfg.MaxRetries < 0 then (0, none)
  else doLoop ctxCanceled op 0 cfg.MaxRetries.toNat

/-! ### ratelimit package

From `internal/ratelimit`.  Timestamps and durations are integer
nanoseconds.  `NewLimiter` with a non-positive budget returns the `nil`
limiter, and `Wait` on the `nil` limiter returns `nil` at once.  The model
gives `Wait` the current clock reading `now` explicitly and returns the
call's result, the limiter state after the call, and the sleep the call
performs. -/

/-- The mutable fields of `ratelimit.Limiter` (the rate itself is only used
to derive `interval`). -/
structure LimState where
  interval : Int
  lastRequest : Int
  deriving Repr, DecidableEq

/-- `ratelimit.NewLimiter`: a budget ≤ 0 yields the `nil` (no-op) limiter;
otherwise the minimum interval is `time.Minute / requestsPerMinute`
(`float64` division, truncated to integer nanoseconds — the argument is
positive, so truncation is `⌊·⌋`).  The zero `time.Time` is modelled as
timestamp 0. -/
def NewLimiter (requestsPerMinute : ℚ) : Option LimState :=
  if requestsPerMinute ≤ 0 then none
  else some { interval := ⌊(60000000000 : ℚ) / requestsPerMinute⌋, lastRequest := 0 }

inductive WaitRes where
  | ok
  | canceled
  deriving Repr, DecidableEq

/-- `Limiter.Wait`: on the `nil` limiter return `nil` immediately.
Otherwise compute the deficit against the minimum interval, reserve the next
slot (`lastRequest := now + waitTime`) before releasing the lock, then sleep
the deficit outside the lock; a cancelled context short-circuits the sleep
and returns the cancellation error (the reservation stays written).  Returns
(result, limiter state after the call, sleep actually performed). -/
def Wait (l : Option LimState) (ctxCanceled : Bool) (now : Int) :
    WaitRes × Option LimState × Int :=
  match l with
  | none => (.ok, none, 0)
  | some st =>
    let elapsed := now - st.lastRequest
    let waitTime : Int := if elapsed < st.interval then st.interval - elapsed else 0
    -- Update lastRequest before releasing lock to reserve our slot
    let st1 : LimState := { st with lastRequest := now + waitTime }
    -- Sleep outside the lock
    if 0 < waitTime then
      if ctxCanceled then (.canceled, some st1, 0) else (.ok, some st1, waitTime)
    else (.ok, some st1, 0)

/-! ### api package: response shapes and the streaming parser

From `internal/api/client.go`. -/

structure Usage where
  promptTokens : Int
  completionTokens : Int
  totalTokens : Int
  deriving Repr, DecidableEq

structure Delta where
  role : String
  content : String
  deriving Repr, DecidableEq

structure ChatMessage where
  role : String
  content : String
  deriving Repr, DecidableEq

structure StreamChoice where
  delta : Delta
  message : ChatMessage
  finishReason : String
  deriving Repr, DecidableEq

/-- `api.ChatResponse` (also the shape of one streaming chunk). -/
structure ChatResponse where
  choices : List StreamChoice
  usage : Usage
  citations : List String
  deriving Repr, DecidableEq

/-- `ChatResponse.GetContent`: prefer the complete-message field of the
first choice over its incremental-delta field. -/
def GetContent (r : ChatResponse) : String :=
  match r.choices with
  | [] => ""
  | choice :: _ =>
    if choice.message.content ≠ "" then choice.message.content
    else choice.delta.content

/-- Go `unicode.IsSpace` on the ASCII range (the characters
`strings.TrimSpace` strips from the frames in play). -/
def isSpaceChar (c : Char) : Bool :=
  c == ' ' || c == '\t' || c == '\n' || c == '\x0b' || c == '\x0c' || c == '\r'

/-- Go `strings.TrimSpace`. -/
def trimSpace (s : String) : String :=
  ⟨((s.data.dropWhile isSpaceChar).reverse.dropWhile isSpaceChar).reverse⟩

/-- Go `strings.HasPrefix s pre`. -/
def strStarts (pre s : String) : Bool := listStarts pre.data s.data

/-- Go `strings.TrimPrefix s pre` under the knowledge that `pre` leads `s`. -/
def strDropPre (pre s : String) : String := ⟨s.data.drop pre.data.length⟩

/-- The read loop of `doQueryStreamWithHistory` (after the connection phase
succeeded).  `lines` is the sequence of complete newline-terminated lines
delivered by `reader.ReadString('\n')`, given without the terminator since
`TrimSpace` removes it (a trailing partial line arrives together with
`io.EOF` and is discarded by the source, so it never reaches the body).
`decode` models `json.Unmarshal` on one frame body, `none` meaning a parse
failure.  `finalResp` is the retained metadata chunk.  The per-iteration
context check always falls through for the non-cancelled contexts of the
claims under verification.  Returns the list of arguments of the `onChunk`
invocations, in order, and the argument `onDone` is invoked with (`none`
when `onDone` is not invoked). -/
def streamLoop (decode : String → Option ChatResponse) :
    List String → Option ChatResponse → List String × Option ChatResponse
  | [], finalResp => ([], finalResp)
  | l :: rest, finalResp =>
    let line := trimSpace l
    if line = "" then streamLoop decode rest finalResp
    else if ¬ strStarts "data: " line then streamLoop decode rest finalResp
    else
      let data := strDropPre "data: " line
      if data = "[DONE]" then ([], finalResp)
      else
        match decode data with
        | none => streamLoop decode rest finalResp
        | some chunk =>
          let out : List String :=
            match chunk.choices with
            | [] => []
            | choice :: _ => if choice.delta.content ≠ "" then [choice.delta.content] else []
          let finalResp' :=
            if 0 < chunk.citations.length ∨ 0 < chunk.usage.totalTokens then some chunk
            else finalResp
          let tailRes := streamLoop decode rest finalResp'
          (out ++ tailRes.1, tailRes.2)

/-! ### api package: one query attempt and the retry-with-rotation loop -/

/-- One HTTP exchange as seen from `doQueryWithHistory`, as a function of
the key presented in the `Authorization` header: a 200 response with a
parsed body, a non-200 status with an optional parsed error-body message,
or a transport failure from `httpClient.Do`. -/
inductive HttpExchange where
  | ok (resp : ChatResponse)
  | status (code : Int) (errMessage : Option String)
  | netFail (message : String)
  deriving Repr, DecidableEq

/-- The error message `GoError.Error()` returns. -/
def errMessage : GoError → String
  | .apiErr _ m => m
  | .genErr m => m
  | .canceled => "context canceled"

/-- Classification of one exchange inside the retried closure of
`doQueryWithHistory`: a non-200 status becomes an `APIError` with the
parsed error-body message or the `"status code N"` fallback (both behind
the `"API error: "` prelude); a transport failure is wrapped as
`"failed to send request: ..."`. -/
def exchangeOutcome (http : String → HttpExchange) (key : String) :
    Except GoError ChatResponse :=
  match http key with
  | .ok resp => .ok resp
  | .status code errBody =>
    .error (.apiErr code
      ("API error: " ++ (match errBody with
        | some m => m
        | none => "status code " ++ toString code)))
  | .netFail m => .error (.genErr ("failed to send request: " ++ m))

/-- `doQueryWithHistory`: the pacer wait (the default configuration has no
rate budget, i.e. the `nil` limiter, so `Wait` returns `nil`), the request
marshal (which succeeds on the message shapes in play), then the exchange
wrapped in `retry.Do`.  Returns (number of HTTP exchanges, outcome). -/
def doQueryM (ctxCanceled : Bool) (cfg : RetryConfig) (http : String → HttpExchange)
    (key : String) : Nat × Except GoError ChatResponse :=
  let ex := exchangeOutcome http key
  let res := Do ctxCanceled cfg (fun _ => match ex with | .ok _ => none | .error e => some e)
  (res.1, match res.2 with
    | none => ex
    | some e => .error e)

/-- `Client.rotateKey`: remember the old index, call `Config.RotateKey`; on
success fire the rotation callback once with 1-based positions.  First
component: the callback invocation's arguments (`none`: rotation failed, no
callback).  Second: the configuration state after the call. -/
def rotateKeyClient (c : RotState) : Option (Nat × Nat × Nat) × RotState :=
  let oldIndex := c.CurrentKeyIndex
  match RotateKey c with
  | (none, c1) => (none, c1)
  | (some _, c1) => (some (oldIndex + 1, c1.CurrentKeyIndex + 1, GetKeyCount c1), c1)

/-- Result of `queryWithRetry`; `fuelOut` is the modelling artifact for an
exhausted recursion budget (never reached at the fuels used below). -/
inductive QueryOutcome where
  | ok (resp : ChatResponse)
  | err (e : GoError)
  | fuelOut
  deriving Repr, DecidableEq

/-- The `for` loop of `queryWithRetry` (reached only with ≥ 2 keys).
Returns (total HTTP exchanges, rotation-callback invocations in order,
outcome, configuration state after the call). -/
def queryLoop (ctxCanceled : Bool) (cfg : RetryConfig) (http : String → HttpExchange) :
    Nat → RotState → Nat × List (Nat × Nat × Nat) × QueryOutcome × RotState
  | 0, c => (0, [], .fuelOut, c)
  | fuel + 1, c =>
    let att := doQueryM ctxCanceled cfg http c.APIKey
    match att.2 with
    | .ok resp => (att.1, [], .ok resp, ResetKeyRotation c)
    | .error e =>
      -- Check if context was cancelled
      if ctxCanceled then (att.1, [], .err .canceled, c)
      else
        match e with
        | .apiErr s m =>
          -- Check if we should rotate keys
          if shouldRotateKey s m then
            match rotateKeyClient c with
            | (none, c1) =>
              (att.1, [], .err (.genErr (errMessage e ++ " (no more API keys available)")), c1)
            | (some args, c1) =>
              let rest := queryLoop ctxCanceled cfg http fuel c1
              (att.1 + rest.1, args :: rest.2.1, rest.2.2)
          else (att.1, [], .err e, c)
        | _ => (att.1, [], .err e, c)

/-- `Client.queryWithRetry`: with at most one key, a single attempt whose
result is returned as-is (no rotation, no cycle reset); otherwise the
rotation loop. -/
def queryWithRetryM (fuel : Nat) (ctxCanceled : Bool) (cfg : RetryConfig)
    (http : String → HttpExchange) (c : RotState) :
    Nat × List (Nat × Nat × Nat) × QueryOutcome × RotState :=
  if GetKeyCount c ≤ 1 then
    let att := doQueryM ctxCanceled cfg http c.APIKey
    (att.1, [], (match att.2 with | .ok r => .ok r | .error e => .err e), c)
  else queryLoop ctxCanceled cfg http fuel c

/-! ### Concrete fixtures

The concrete inputs named by the spec's test scenarios: the four streaming
frames with their parsed chunks, and the two-key mock endpoint. -/

/-- Chunk carried by the first streaming frame (incremental text "Hello"). -/
def helloChunk : ChatResponse := ⟨[⟨⟨"", "Hello"⟩, ⟨"", ""⟩, ""⟩], ⟨0, 0, 0⟩, []⟩

/-- Chunk carried by the second streaming frame (incremental text " world"). -/
def worldChunk : ChatResponse := ⟨[⟨⟨"", " world"⟩, ⟨"", ""⟩, ""⟩], ⟨0, 0, 0⟩, []⟩

/-- Metadata chunk: citations `["https://x"]` and `total_tokens = 10`. -/
def metaChunk : ChatResponse := ⟨[], ⟨0, 0, 10⟩, ["https://x"]⟩

/-- The frame lines of the concrete streaming scenario. -/
def streamFrames : List String :=
  [ "data: \x7b\"choices\":[\x7b\"delta\":\x7b\"content\":\"Hello\"\x7d\x7d]\x7d",
    "data: \x7b\"choices\":[\x7b\"delta\":\x7b\"content\":\" world\"\x7d\x7d]\x7d",
    "data: \x7b\"citations\":[\"https://x\"],\"usage\":\x7b\"total_tokens\":10\x7d\x7d",
    "data: [DONE]" ]

/-- `json.Unmarshal` on the frame bodies of the scenario. -/
def streamDecode : String → Option ChatResponse := fun s =>
  if s = "\x7b\"choices\":[\x7b\"delta\":\x7b\"content\":\"Hello\"\x7d\x7d]\x7d" then
    some helloChunk
  else if s = "\x7b\"choices\":[\x7b\"delta\":\x7b\"content\":\" world\"\x7d\x7d]\x7d" then
    some worldChunk
  else if s = "\x7b\"citations\":[\"https://x\"],\"usage\":\x7b\"total_tokens\":10\x7d\x7d" then
    some metaChunk
  else none

/-- 200 response whose first choice carries message content "ok". -/
def okResponse : ChatResponse := ⟨[⟨⟨"", ""⟩, ⟨"assistant", "ok"⟩, ""⟩], ⟨0, 0, 0⟩, []⟩

/-- Mock endpoint: credential "key1" earns a 401 (no parsed error body),
credential "key2" earns a 200 with content "ok". -/
def mockExchange : String → HttpExchange := fun key =>
  if key = "key1" then .status 401 none else .ok okResponse

/-- Two configured keys, starting at "key1", no cycle being tracked. -/
def twoKeyStart : RotState := ⟨["key1", "key2"], 0, "key1", -1⟩

/-! ## Theorems -/

/-- C1: `shouldRotateKey s m` is true exactly when `s` is one of
401/403/429 or the lowercased `m` contains one of the fixed
credit/quota-exhaustion phrases; any status with a message containing
"insufficient credit" in any letter case rotates; 402 and 500 with a
non-matching message do not; message "normal error" alone never does
(the result then reduces to the status-code check). -/
theorem shouldRotateKey_spec (s : Int) (m : String)
    (hm : strContains (strToLower m) "insufficient credit" = true) :
    (∀ s2 : Int, ∀ m2 : String,
      (shouldRotateKey s2 m2 = true ↔
        (s2 = 401 ∨ s2 = 403 ∨ s2 = 429 ∨
          ∃ p ∈ CreditExhaustedPatterns, strContains (strToLower m2) p = true))) ∧
    shouldRotateKey s m = true ∧
    shouldRotateKey 402 "normal error" = false ∧
    shouldRotateKey 500 "normal error" = false ∧
    (∀ s3 : Int, shouldRotateKey s3 "normal error" = RotatableErrorCodes.contains s3) := by
  have hgen : ∀ s2 : Int, ∀ m2 : String,
      (shouldRotateKey s2 m2 = true ↔
        (s2 = 401 ∨ s2 = 403 ∨ s2 = 429 ∨
          ∃ p ∈ CreditExhaustedPatterns, strContains (strToLower m2) p = true)) := by
    intro s2 m2
    simp [shouldRotateKey, RotatableErrorCodes, List.any_eq_true, or_assoc]
  refine ⟨hgen, ?_, by decide, by decide, ?_⟩
  · exact (hgen s m).mpr (.inr (.inr (.inr ⟨"insufficient credit", by decide, hm⟩)))
  · intro s3
    have hno : CreditExhaustedPatterns.any
        (fun pattern => strContains (strToLower "normal error") pattern) = false := by decide
    simp [shouldRotateKey, hno]

/-- C1 witness. -/
theorem shouldRotateKey_spec_witness :
    shouldRotateKey 777 "Insufficient Credit remaining" = true :=
  (shouldRotateKey_spec 777 "Insufficient Credit remaining" (by decide)).2.1

/-- C2: a credential set with at most one key never rotates and rotation
leaves the state untouched; with several keys the first rotation since the
last success records the cycle start, the index always advances to
`(current + 1) mod count`, and rotation is exhausted (clearing the marker)
exactly when the advanced index meets the recorded start.  Concretely, with
keys `key0,key1,key2`: from index 0 rotation yields key1, key2, exhausted;
from index 1 it yields key2, key0, exhausted; and `ResetKeyRotation` after a
success permits a fresh full cycle. -/
theorem rotateKey_spec (c : RotState) (hone : GetKeyCount c ≤ 1) :
    RotateKey c = (none, c) ∧
    (∀ c2 : RotState, 2 ≤ GetKeyCount c2 → c2.startKeyIndex < 0 →
      RotateKey c2 =
        (let next := (c2.CurrentKeyIndex + 1) % GetKeyCount c2
         if (next : Int) = (c2.CurrentKeyIndex : Int) then
           (none, { c2 with startKeyIndex := -1 })
         else
           (some (c2.APIKeys.getD next ""),
            { c2 with CurrentKeyIndex := next, APIKey := c2.APIKeys.getD next "",
                      startKeyIndex := (c2.CurrentKeyIndex : Int) }))) ∧
    (∀ c2 : RotState, 2 ≤ GetKeyCount c2 → 0 ≤ c2.startKeyIndex →
      RotateKey c2 =
        (let next := (c2.CurrentKeyIndex + 1) % GetKeyCount c2
         if (next : Int) = c2.startKeyIndex then
           (none, { c2 with startKeyIndex := -1 })
         else
           (some (c2.APIKeys.getD next ""),
            { c2 with CurrentKeyIndex := next, APIKey := c2.APIKeys.getD next "" }))) ∧
    (RotateKey ⟨["key0","key1","key2"], 0, "key0", -1⟩
        = (some "key1", ⟨["key0","key1","key2"], 1, "key1", 0⟩) ∧
      RotateKey ⟨["key0","key1","key2"], 1, "key1", 0⟩
        = (some "key2", ⟨["key0","key1","key2"], 2, "key2", 0⟩) ∧
      RotateKey ⟨["key0","key1","key2"], 2, "key2", 0⟩
        = (none, ⟨["key0","key1","key2"], 2, "key2", -1⟩)) ∧
    (RotateKey ⟨["key0","key1","key2"], 1, "key1", -1⟩
        = (some "key2", ⟨["key0","key1","key2"], 2, "key2", 1⟩) ∧
      RotateKey ⟨["key0","key1","key2"], 2, "key2", 1⟩
        = (some "key0", ⟨["key0","key1","key2"], 0, "key0", 1⟩) ∧
      RotateKey ⟨["key0","key1","key2"], 0, "key0", 1⟩
        = (none, ⟨["key0","key1","key2"], 0, "key0", -1⟩)) ∧
    (ResetKeyRotation ⟨["key0","key1","key2"], 1, "key1", 0⟩
        = ⟨["key0","key1","key2"], 1, "key1", -1⟩) := by
  refine ⟨?_, ?_, ?_, by decide, by decide, by decide⟩
  · have h1 : c.APIKeys.length ≤ 1 := hone
    simp [RotateKey, h1]
  · intro c2 h2 hs
    have hlen : ¬ c2.APIKeys.length ≤ 1 := by
      have : 2 ≤ c2.APIKeys.length := h2
      omega
    simp only [RotateKey, GetKeyCount, if_neg hlen, if_pos hs]
  · intro c2 h2 hs
    have hlen : ¬ c2.APIKeys.length ≤ 1 := by
      have : 2 ≤ c2.APIKeys.length := h2
      omega
    have hs2 : ¬ c2.startKeyIndex < 0 := not_lt.mpr hs
    simp only [RotateKey, GetKeyCount, if_neg hlen, if_neg hs2]

/-- C2 witness. -/
theorem rotateKey_spec_witness :
    RotateKey ⟨["solo"], 0, "solo", -1⟩ = (none, ⟨["solo"], 0, "solo", -1⟩) :=
  (rotateKey_spec ⟨["solo"], 0, "solo", -1⟩ (by decide)).1

/-- `retry.Do` loop body, never-cancelled context, successful invocation. -/
theorem doLoop_false_ok (op : Nat → Option GoError) (a l : Nat)
    (h : op a = none) : doLoop false op a l = (a + 1, none) := by
  rw [doLoop]
  simp [h]

/-- `retry.Do` loop body, never-cancelled context, non-retryable error. -/
theorem doLoop_false_nonretryable (op : Nat → Option GoError) (a l : Nat)
    (e : GoError) (h : op a = some e) (hnr : IsRetryableError e = false) :
    doLoop false op a l = (a + 1, some e) := by
  rw [doLoop]
  cases l <;> simp [h, hnr]

/-- `retry.Do` loop body, never-cancelled context, retryable error on the
final allowed attempt: the loop breaks and the last error is returned. -/
theorem doLoop_false_last (op : Nat → Option GoError) (a : Nat)
    (e : GoError) (h : op a = some e) (hr : IsRetryableError e = true) :
    doLoop false op a 0 = (a + 1, some e) := by
  rw [doLoop]
  simp [h, hr]

/-- `retry.Do` loop body, never-cancelled context, retryable error with
budget remaining: continue with the next attempt. -/
theorem doLoop_false_retry (op : Nat → Option GoError) (a l : Nat)
    (e : GoError) (h : op a = some e) (hr : IsRetryableError e = true) :
    doLoop false op a (l + 1) = doLoop false op (a + 1) l := by
  rw [doLoop]
  simp [h, hr]

/-- Behaviour of the `retry.Do` loop on an operation that fails with
retryable errors on its first `k` invocations and then succeeds: starting
at attempt `a ≤ k` with `l` further attempts allowed, either the success at
invocation `k` is reached, or the budget runs out first and the error of
the last allowed invocation is returned. -/
theorem doLoop_firstFailures (op : Nat → Option GoError) (err : Nat → GoError) (k : Nat)
    (hfail : ∀ i, i < k → op i = some (err i))
    (hretry : ∀ i, i < k → IsRetryableError (err i) = true)
    (hsucc : op k = none) :
    ∀ l a, a ≤ k →
      doLoop false op a l =
        if k ≤ a + l then (k + 1, none) else (a + l + 1, some (err (a + l))) := by
  intro l
  induction l with
  | zero =>
    intro a ha
    rcases eq_or_lt_of_le ha with rfl | hlt
    · rw [doLoop_false_ok op a 0 hsucc, if_pos (show a ≤ a + 0 from by omega)]
    · rw [doLoop_false_last op a (err a) (hfail a hlt) (hretry a hlt),
        if_neg (show ¬ k ≤ a + 0 from by omega)]
      simp
  | succ l ih =>
    intro a ha
    rcases eq_or_lt_of_le ha with rfl | hlt
    · rw [doLoop_false_ok op a (l + 1) hsucc, if_pos (show a ≤ a + (l + 1) from by omega)]
    · rw [doLoop_false_retry op a l (err a) (hfail a hlt) (hretry a hlt)]
      rw [ih (a + 1) (by omega)]
      by_cases hk : k ≤ a + (l + 1)
      · rw [if_pos (show k ≤ a + 1 + l from by omega), if_pos hk]
      · rw [if_neg (show ¬ k ≤ a + 1 + l from by omega), if_neg hk]
        have h3 : a + 1 + l = a + (l + 1) := by omega
        rw [h3]

/-- C3: with `maxRetries ≥ 0`, an operation failing retryably on its first
`k` invocations and succeeding on invocation `k` is invoked exactly
`min (k+1) (maxRetries+1)` times by `retry.Do`, returning success when
`k ≤ maxRetries` and the last retryable error when the operation failed on
all `maxRetries + 1` invocations; a first error that is not retryable means
exactly one invocation, with that error returned. -/
theorem do_attempt_count (cfg : RetryConfig) (op : Nat → Option GoError)
    (err : Nat → GoError) (k : Nat)
    (hm : 0 ≤ cfg.MaxRetries)
    (hfail : ∀ i, i < k → op i = some (err i))
    (hretry : ∀ i, i < k → IsRetryableError (err i) = true)
    (hsucc : op k = none) :
    Do false cfg op =
      (min (k + 1) (cfg.MaxRetries.toNat + 1),
        if k ≤ cfg.MaxRetries.toNat then none else some (err cfg.MaxRetries.toNat)) ∧
    (∀ (op2 : Nat → Option GoError) (e : GoError), op2 0 = some e →
      IsRetryableError e = false → Do false cfg op2 = (1, some e)) := by
  constructor
  · rw [Do, if_neg (by omega)]
    rw [doLoop_firstFailures op err k hfail hretry hsucc cfg.MaxRetries.toNat 0 (by omega)]
    simp only [Nat.zero_add]
    by_cases hk : k ≤ cfg.MaxRetries.toNat
    · rw [if_pos hk]
      have hmin : min (k + 1) (cfg.MaxRetries.toNat + 1) = k + 1 := by omega
      rw [hmin, if_pos hk]
    · rw [if_neg hk]
      have hmin : min (k + 1) (cfg.MaxRetries.toNat + 1) = cfg.MaxRetries.toNat + 1 := by omega
      rw [hmin, if_neg hk]
  · intro op2 e h0 hnr
    rw [Do, if_neg (by omega)]
    exact doLoop_false_nonretryable op2 0 cfg.MaxRetries.toNat e h0 hnr

/-- C3 witness: fails twice retryably then succeeds with budget 3 → three
invocations and success; with budget 2 an always-retryably-failing
operation is invoked three times and its last error returned; a
non-retryable first error is returned after one invocation. -/
theorem do_attempt_count_witness :
    Do false { DefaultConfig with MaxRetries := 3 }
        (fun n => if n < 2 then some (.genErr "connection refused") else none)
      = (3, none) ∧
    Do false { DefaultConfig with MaxRetries := 2 }
        (fun _ => some (.genErr "connection refused"))
      = (3, some (.genErr "connection refused")) ∧
    Do false { DefaultConfig with MaxRetries := 2 }
        (fun _ => some (.genErr "some random error"))
      = (1, some (.genErr "some random error")) := by
  have h1 := do_attempt_count { DefaultConfig with MaxRetries := 3 }
    (fun n => if n < 2 then some (.genErr "connection refused") else none)
    (fun _ => .genErr "connection refused") 2
    (by decide) (by decide) (by decide) (by decide)
  have h2 := do_attempt_count { DefaultConfig with MaxRetries := 2 }
    (fun n => if n < 3 then some (.genErr "connection refused") else none)
    (fun _ => .genErr "connection refused") 3
    (by decide) (by decide) (by decide) (by decide)
  refine ⟨by simpa using h1.1, ?_, ?_⟩
  · have := h2.1
    simp only [show (({ DefaultConfig with MaxRetries := 2 } : RetryConfig)).MaxRetries.toNat = 2
      from rfl] at this
    have heq : Do false { DefaultConfig with MaxRetries := 2 }
        (fun _ => some (.genErr "connection refused"))
      = Do false { DefaultConfig with MaxRetries := 2 }
        (fun n => if n < 3 then some (.genErr "connection refused") else none) := by decide
    rw [heq]
    simpa using this
  · exact h2.2 (fun _ => some (.genErr "some random error"))
      (.genErr "some random error") rfl (by decide)

/-- C4 counterexample: a policy whose exponential term already hits the cap
(initial 10, max 10, multiplier 2, jitter 0.2) with random draw 0.9 at
attempt 1 yields 11.6 > 10: with nonzero jitter `CalculateBackoff` can
exceed the policy's maximum backoff, refuting the claim that it never
does. -/
theorem calculateBackoff_exceeds_max :
    ¬ (CalculateBackoff ⟨3, 10, 10, 2, 1/5⟩ 1 (9/10)
        ≤ (⟨3, 10, 10, 2, 1/5⟩ : RetryConfig).MaxBackoff) := by
  norm_num [CalculateBackoff, Int.toNat]

/-- C4 (amended): for a policy with nonnegative initial/maximum backoff,
multiplier and jitter, and a random draw `r ∈ [0,1)`: every attempt `a > 0`
yields at most `maxBackoff * (1 + jitter)` — so at most `maxBackoff` itself
when the jitter is zero — while an attempt `a ≤ 0` returns the initial
backoff unmodified (not capped by `maxBackoff`). -/
theorem calculateBackoff_bounded (cfg : RetryConfig) (a : Int) (r : ℚ)
    (hi : 0 ≤ cfg.InitialBackoff) (hmax : 0 ≤ cfg.MaxBackoff)
    (hmul : 0 ≤ cfg.Multiplier) (hj : 0 ≤ cfg.Jitter)
    (hr0 : 0 ≤ r) (hr1 : r < 1) :
    (0 < a → CalculateBackoff cfg a r ≤ cfg.MaxBackoff * (1 + cfg.Jitter)) ∧
    (0 < a → cfg.Jitter = 0 → CalculateBackoff cfg a r ≤ cfg.MaxBackoff) ∧
    (a ≤ 0 → CalculateBackoff cfg a r = cfg.InitialBackoff) := by
  refine ⟨?_, ?_, ?_⟩
  · intro ha
    simp only [CalculateBackoff]
    rw [if_neg (show ¬ a ≤ 0 by omega)]
    have hpow0 : 0 ≤ cfg.InitialBackoff * cfg.Multiplier ^ a.toNat :=
      mul_nonneg hi (pow_nonneg hmul _)
    by_cases hc : cfg.InitialBackoff * cfg.Multiplier ^ a.toNat > cfg.MaxBackoff
    · rw [if_pos hc]
      by_cases hjp : cfg.Jitter > 0
      · rw [if_pos hjp]
        nlinarith [mul_nonneg (mul_nonneg hmax hj) (sub_nonneg.mpr hr1.le)]
      · rw [if_neg hjp]
        nlinarith
    · rw [if_neg hc]
      push_neg at hc
      by_cases hjp : cfg.Jitter > 0
      · rw [if_pos hjp]
        nlinarith [mul_nonneg (mul_nonneg hpow0 hj) (sub_nonneg.mpr hr1.le),
          mul_le_mul_of_nonneg_right hc (by linarith : (0:ℚ) ≤ 1 + cfg.Jitter)]
      · rw [if_neg hjp]
        nlinarith
  · intro ha hj0
    simp only [CalculateBackoff]
    rw [if_neg (show ¬ a ≤ 0 by omega)]
    have hj0ltF : ¬ cfg.Jitter > 0 := by rw [hj0]; norm_num
    rw [if_neg hj0ltF]
    by_cases hc : cfg.InitialBackoff * cfg.Multiplier ^ a.toNat > cfg.MaxBackoff
    · rw [if_pos hc]
    · rw [if_neg hc]
      push_neg at hc
      exact hc
  · intro ha
    simp only [CalculateBackoff]
    rw [if_pos ha]

/-- C4 witness. -/
theorem calculateBackoff_bounded_witness :
    CalculateBackoff ⟨3, 10, 10, 2, 1/5⟩ 1 (9/10) ≤ (10 : ℚ) * (1 + 1/5) :=
  (calculateBackoff_bounded ⟨3, 10, 10, 2, 1/5⟩ 1 (9/10)
    (by norm_num) (by norm_num) (by norm_num) (by norm_num) (by norm_num)
    (by norm_num)).1 (by norm_num)

/-- C5: attempt 0 returns the initial backoff unmodified even when the
jitter is positive; for attempts `a > 0`, with
`capped = min (initial * multiplier^a) maxBackoff`, the result equals
`capped` when the jitter is zero and lies in
`[capped*(1-jitter), capped*(1+jitter)]` when the jitter is positive. -/
theorem calculateBackoff_shape (cfg : RetryConfig) (a : Int) (r : ℚ)
    (hi : 0 ≤ cfg.InitialBackoff) (hmax : 0 ≤ cfg.MaxBackoff)
    (hmul : 0 ≤ cfg.Multiplier) (hr0 : 0 ≤ r) (hr1 : r < 1) :
    CalculateBackoff cfg 0 r = cfg.InitialBackoff ∧
    (0 < a →
      (cfg.Jitter = 0 →
        CalculateBackoff cfg a r
          = min (cfg.InitialBackoff * cfg.Multiplier ^ a.toNat) cfg.MaxBackoff) ∧
      (0 < cfg.Jitter →
        min (cfg.InitialBackoff * cfg.Multiplier ^ a.toNat) cfg.MaxBackoff * (1 - cfg.Jitter)
            ≤ CalculateBackoff cfg a r ∧
        CalculateBackoff cfg a r
            ≤ min (cfg.InitialBackoff * cfg.Multiplier ^ a.toNat) cfg.MaxBackoff
                * (1 + cfg.Jitter))) := by
  have hpow0 : 0 ≤ cfg.InitialBackoff * cfg.Multiplier ^ a.toNat :=
    mul_nonneg hi (pow_nonneg hmul _)
  have hcap : ∀ x y : ℚ, (if x > y then y else x) = min x y := by
    intro x y
    by_cases h : x > y
    · rw [if_pos h, min_eq_right h.le]
    · rw [if_neg h, min_eq_left (not_lt.mp h)]
  refine ⟨by simp only [CalculateBackoff]; rw [if_pos le_rfl], ?_⟩
  intro ha
  have hmin0 : 0 ≤ min (cfg.InitialBackoff * cfg.Multiplier ^ a.toNat) cfg.MaxBackoff :=
    le_min hpow0 hmax
  constructor
  · intro hj0
    simp only [CalculateBackoff]
    rw [if_neg (show ¬ a ≤ 0 by omega)]
    rw [if_neg (show ¬ cfg.Jitter > 0 by rw [hj0]; norm_num)]
    exact hcap _ _
  · intro hjp
    simp only [CalculateBackoff]
    rw [if_neg (show ¬ a ≤ 0 by omega), if_pos hjp, hcap]
    set capped := min (cfg.InitialBackoff * cfg.Multiplier ^ a.toNat) cfg.MaxBackoff with hc
    constructor
    · nlinarith [mul_nonneg (mul_nonneg hmin0 hjp.le) hr0]
    · nlinarith [mul_nonneg (mul_nonneg hmin0 hjp.le) (sub_nonneg.mpr hr1.le)]

/-- C5 witness: initial 100, max 1000, multiplier 2, jitter 1/2, draw 1/2,
attempt 2: `capped = 400`, result within `[200, 600]`; attempt 0 returns
100 unmodified. -/
theorem calculateBackoff_shape_witness :
    CalculateBackoff ⟨3, 100, 1000, 2, 1/2⟩ 0 (1/2) = 100 ∧
    (200 : ℚ) ≤ CalculateBackoff ⟨3, 100, 1000, 2, 1/2⟩ 2 (1/2) ∧
    CalculateBackoff ⟨3, 100, 1000, 2, 1/2⟩ 2 (1/2) ≤ 600 := by
  have h := calculateBackoff_shape ⟨3, 100, 1000, 2, 1/2⟩ 2 (1/2)
    (by norm_num) (by norm_num) (by norm_num) (by norm_num) (by norm_num)
  have hmin : min ((100 : ℚ) * 2 ^ (2 : Int).toNat) 1000 = 400 := by
    norm_num [Int.toNat]
  obtain ⟨h0, h2⟩ := h
  obtain ⟨-, hint⟩ := h2 (by norm_num)
  obtain ⟨hlo, hhi⟩ := hint (by norm_num)
  rw [hmin] at hlo hhi
  refine ⟨h0, by linarith, by linarith⟩

/-- C10: `retry.Do` with a negative `MaxRetries` returns `nil` — reported
as success, indistinguishable from a genuinely successful call — without
invoking the operation even once and regardless of the context's
cancellation state (the loop body, including its context check, never
runs). -/
theorem do_negative_maxRetries (ctxCanceled : Bool) (cfg : RetryConfig)
    (op : Nat → Option GoError) (h : cfg.MaxRetries < 0) :
    Do ctxCanceled cfg op = (0, none) := by
  simp [Do, h]

/-- C10 witness: a cancelled context and an operation that would fail. -/
theorem do_negative_maxRetries_witness :
    Do true { DefaultConfig with MaxRetries := -1 }
      (fun _ => some (.genErr "boom")) = (0, none) :=
  do_negative_maxRetries true { DefaultConfig with MaxRetries := -1 }
    (fun _ => some (.genErr "boom")) (by decide)

/-- One step of the streaming read loop on a well-formed `data: ` frame
that parses: the chunk's delta (if any) is emitted, the retained metadata
chunk is updated last-wins, and the loop continues. -/
theorem streamLoop_parsed (decode : String → Option ChatResponse) (l : String)
    (rest : List String) (f : Option ChatResponse) (chunk : ChatResponse)
    (hne : ¬ trimSpace l = "")
    (hpre : strStarts "data: " (trimSpace l) = true)
    (hnd : ¬ strDropPre "data: " (trimSpace l) = "[DONE]")
    (hdec : decode (strDropPre "data: " (trimSpace l)) = some chunk) :
    streamLoop decode (l :: rest) f =
      ((match chunk.choices with
        | [] => []
        | choice :: _ => if choice.delta.content ≠ "" then [choice.delta.content] else []) ++
        (streamLoop decode rest
          (if 0 < chunk.citations.length ∨ 0 < chunk.usage.totalTokens then some chunk
           else f)).1,
       (streamLoop decode rest
          (if 0 < chunk.citations.length ∨ 0 < chunk.usage.totalTokens then some chunk
           else f)).2) := by
  simp only [streamLoop]
  rw [if_neg hne, if_neg (show ¬ ¬ strStarts "data: " (trimSpace l) = true by simp [hpre]),
    if_neg hnd, hdec]

/-- C6: on a parsed frame whose first choice has non-empty delta content,
the chunk callback is invoked exactly once with exactly that text, in frame
order, and the metadata chunk is retained last-wins; unparseable frames are
skipped without aborting; the `[DONE]` sentinel and end-of-stream both end
the loop, handing the retained chunk (if any) to the completion callback;
and the concrete four-frame scenario yields exactly "Hello" then " world"
and one completion with citations `["https://x"]` and 10 total tokens. -/
theorem streamLoop_spec (decode : String → Option ChatResponse) (l : String)
    (rest : List String) (f : Option ChatResponse) (chunk : ChatResponse)
    (ch : StreamChoice) (t : List StreamChoice)
    (hne : ¬ trimSpace l = "")
    (hpre : strStarts "data: " (trimSpace l) = true)
    (hnd : ¬ strDropPre "data: " (trimSpace l) = "[DONE]")
    (hdec : decode (strDropPre "data: " (trimSpace l)) = some chunk)
    (hch : chunk.choices = ch :: t)
    (hcont : ¬ ch.delta.content = "") :
    (streamLoop decode (l :: rest) f =
      (ch.delta.content ::
        (streamLoop decode rest
          (if 0 < chunk.citations.length ∨ 0 < chunk.usage.totalTokens then some chunk
           else f)).1,
       (streamLoop decode rest
          (if 0 < chunk.citations.length ∨ 0 < chunk.usage.totalTokens then some chunk
           else f)).2)) ∧
    (∀ l2, ¬ trimSpace l2 = "" → strStarts "data: " (trimSpace l2) = true →
      ¬ strDropPre "data: " (trimSpace l2) = "[DONE]" →
      decode (strDropPre "data: " (trimSpace l2)) = none →
      streamLoop decode (l2 :: rest) f = streamLoop decode rest f) ∧
    (∀ l3, ¬ trimSpace l3 = "" → strStarts "data: " (trimSpace l3) = true →
      strDropPre "data: " (trimSpace l3) = "[DONE]" →
      streamLoop decode (l3 :: rest) f = ([], f)) ∧
    streamLoop decode [] f = ([], f) ∧
    (streamLoop streamDecode streamFrames none = (["Hello", " world"], some metaChunk) ∧
      metaChunk.citations = ["https://x"] ∧ metaChunk.usage.totalTokens = 10) := by
  refine ⟨?_, ?_, ?_, by rw [streamLoop], by decide⟩
  · rw [streamLoop_parsed decode l rest f chunk hne hpre hnd hdec, hch]
    simp [hcont]
  · intro l2 hne2 hpre2 hnd2 hdec2
    rw [streamLoop]
    rw [if_neg hne2, if_neg (show ¬ ¬ strStarts "data: " (trimSpace l2) = true by simp [hpre2]),
      if_neg hnd2, hdec2]
  · intro l3 hne3 hpre3 hd3
    rw [streamLoop]
    rw [if_neg hne3, if_neg (show ¬ ¬ strStarts "data: " (trimSpace l3) = true by simp [hpre3]),
      if_pos hd3]

/-- C6 witness: the first frame of the concrete scenario instantiates the
general frame step, and the full scenario evaluates as claimed. -/
theorem streamLoop_spec_witness :
    streamLoop streamDecode streamFrames none = (["Hello", " world"], some metaChunk) :=
  (streamLoop_spec streamDecode
    "data: \x7b\"choices\":[\x7b\"delta\":\x7b\"content\":\"Hello\"\x7d\x7d]\x7d"
    (streamFrames.drop 1) none helloChunk ⟨⟨"", "Hello"⟩, ⟨"", ""⟩, ""⟩ []
    (by decide) (by decide) (by decide) (by decide) (by decide) (by decide)).2.2.2.2.1

/-- C7: every successful rotation of `Client.rotateKey` fires the rotation
callback exactly once, with old position, new position and key count in
1-based form; in the two-key scenario where "key1" earns 401 and "key2"
earns 200/"ok", the query returns content "ok" after exactly two HTTP
exchanges with one callback invocation carrying (1, 2, 2). -/
theorem rotationCallback_spec (c : RotState) (k : String) (c1 : RotState)
    (h : RotateKey c = (some k, c1)) :
    rotateKeyClient c
      = (some (c.CurrentKeyIndex + 1, c1.CurrentKeyIndex + 1, GetKeyCount c1), c1) ∧
    (queryWithRetryM 2 false DefaultConfig mockExchange twoKeyStart
        = (2, [(1, 2, 2)], .ok okResponse, ⟨["key1", "key2"], 1, "key2", -1⟩) ∧
      GetContent okResponse = "ok") := by
  refine ⟨?_, by decide, by decide⟩
  rw [rotateKeyClient, h]

/-- C7 witness. -/
theorem rotationCallback_spec_witness :
    queryWithRetryM 2 false DefaultConfig mockExchange twoKeyStart
      = (2, [(1, 2, 2)], .ok okResponse, ⟨["key1", "key2"], 1, "key2", -1⟩) :=
  (rotationCallback_spec twoKeyStart "key2" ⟨["key1", "key2"], 1, "key2", 0⟩
    (by decide)).2.1

/-- C8: classification of one pass of the outer retry-with-rotation loop.
With at most one credential there is exactly one attempt, returned as-is
with no rotation.  Otherwise: a successful attempt clears the rotation
cycle marker; a failed attempt under an observed cancellation returns the
cancellation error without rotating; a non-API error returns immediately
without rotating; an API error failing `shouldRotateKey` returns
immediately; a rotatable API error with rotation exhausted returns the
original error annotated with "no more API keys available"; and a rotatable
API error with a successful rotation loops with the new credential,
recording the callback invocation. -/
theorem queryWithRetry_branches (cfg : RetryConfig) (http : String → HttpExchange)
    (c : RotState) (n : Nat) :
    (∀ (c1 : RotState) (fuel : Nat) (ctx : Bool), GetKeyCount c1 ≤ 1 →
      queryWithRetryM fuel ctx cfg http c1 =
        ((doQueryM ctx cfg http c1.APIKey).1, [],
          (match (doQueryM ctx cfg http c1.APIKey).2 with
            | .ok r => .ok r
            | .error e => .err e), c1)) ∧
    (∀ resp, (doQueryM false cfg http c.APIKey).2 = .ok resp →
      queryLoop false cfg http (n + 1) c =
        ((doQueryM false cfg http c.APIKey).1, [], .ok resp, ResetKeyRotation c)) ∧
    (∀ e, (doQueryM true cfg http c.APIKey).2 = .error e →
      queryLoop true cfg http (n + 1) c =
        ((doQueryM true cfg http c.APIKey).1, [], .err .canceled, c)) ∧
    (∀ m, (doQueryM false cfg http c.APIKey).2 = .error (.genErr m) →
      queryLoop false cfg http (n + 1) c =
        ((doQueryM false cfg http c.APIKey).1, [], .err (.genErr m), c)) ∧
    (∀ s m, (doQueryM false cfg http c.APIKey).2 = .error (.apiErr s m) →
      shouldRotateKey s m = false →
      queryLoop false cfg http (n + 1) c =
        ((doQueryM false cfg http c.APIKey).1, [], .err (.apiErr s m), c)) ∧
    (∀ s m c1, (doQueryM false cfg http c.APIKey).2 = .error (.apiErr s m) →
      shouldRotateKey s m = true → rotateKeyClient c = (none, c1) →
      queryLoop false cfg http (n + 1) c =
        ((doQueryM false cfg http c.APIKey).1, [],
          .err (.genErr (m ++ " (no more API keys available)")), c1)) ∧
    (∀ s m args c1, (doQueryM false cfg http c.APIKey).2 = .error (.apiErr s m) →
      shouldRotateKey s m = true → rotateKeyClient c = (some args, c1) →
      queryLoop false cfg http (n + 1) c =
        ((doQueryM false cfg http c.APIKey).1 + (queryLoop false cfg http n c1).1,
          args :: (queryLoop false cfg http n c1).2.1,
          (queryLoop false cfg http n c1).2.2)) := by
  refine ⟨?_, ?_, ?_, ?_, ?_, ?_, ?_⟩
  · intro c1 fuel ctx hone
    rw [queryWithRetryM, if_pos hone]
  · intro resp h
    rw [queryLoop]
    simp only [h]
  · intro e h
    rw [queryLoop]
    simp only [h]
    cases e <;> simp
  · intro m h
    rw [queryLoop]
    simp only [h]
    simp
  · intro s m h hsr
    rw [queryLoop]
    simp only [h, hsr]
    simp
  · intro s m c1 h hsr hrot
    rw [queryLoop]
    simp only [h, hsr, hrot, errMessage]
    simp
  · intro s m args c1 h hsr hrot
    rw [queryLoop]
    simp only [h, hsr, hrot]
    simp

/-- C8 witness: a cancelled context with the two-key mock endpoint — one
failed attempt (zero exchanges, the context check precedes the exchange),
the cancellation error propagated, no rotation. -/
theorem queryWithRetry_branches_witness :
    queryLoop true DefaultConfig mockExchange 2 twoKeyStart
      = (0, [], .err .canceled, twoKeyStart) :=
  ((queryWithRetry_branches DefaultConfig mockExchange twoKeyStart 1).2.2.1
    .canceled rfl).trans (by decide)

/-- `Limiter.Wait` on a live limiter, in closed form. -/
theorem wait_some (st : LimState) (cancel : Bool) (now : Int) :
    Wait (some st) cancel now =
      (let waitTime : Int :=
        if now - st.lastRequest < st.interval then st.interval - (now - st.lastRequest) else 0
       if 0 < waitTime then
         if cancel then (.canceled, some { st with lastRequest := now + waitTime }, 0)
         else (.ok, some { st with lastRequest := now + waitTime }, waitTime)
       else (.ok, some { st with lastRequest := now + waitTime }, 0)) := by
  rw [Wait]

/-- C9 counterexample: a `Wait` whose cancellation token is already
cancelled but whose slot is free (a full interval has elapsed) returns
success, not the cancellation result — refuting the claim that an
already-cancelled token always yields cancellation. -/
theorem wait_cancelled_free_slot_ok :
    ¬ ((Wait (some ⟨1000000000, 0⟩) true 2000000000).1 = WaitRes.canceled) := by
  decide

/-- C9 (amended): a non-positive requests-per-minute budget yields the
no-op (`nil`) limiter, on which every `Wait` returns success immediately
with no state and no sleep; a positive budget `r` yields the interval
`60s/r`; on a live limiter every `Wait` reserves a slot at least one
interval after the previous one (exactly one interval later when the call
arrives within the interval); and a `Wait` that has to sleep (the call
arrived within the interval) with an already-cancelled token returns the
cancellation result, while a `Wait` needing no sleep returns success even
when the token is cancelled. -/
theorem wait_spec (rpm : ℚ) (st : LimState) (cancel : Bool) (now : Int)
    (hrpm : rpm ≤ 0) :
    NewLimiter rpm = none ∧
    (∀ (cancel2 : Bool) (now2 : Int), Wait none cancel2 now2 = (.ok, none, 0)) ∧
    (∀ rpm2 : ℚ, 0 < rpm2 →
      NewLimiter rpm2 = some ⟨⌊(60000000000 : ℚ) / rpm2⌋, 0⟩) ∧
    (∃ st1 : LimState,
      (Wait (some st) cancel now).2.1 = some st1 ∧
      st.lastRequest + st.interval ≤ st1.lastRequest ∧
      (now - st.lastRequest < st.interval → st1.lastRequest = st.lastRequest + st.interval)) ∧
    (now - st.lastRequest < st.interval → (Wait (some st) true now).1 = .canceled) ∧
    (st.interval ≤ now - st.lastRequest →
      Wait (some st) cancel now = (.ok, some ⟨st.interval, now⟩, 0)) := by
  refine ⟨?_, ?_, ?_, ?_, ?_, ?_⟩
  · rw [NewLimiter, if_pos hrpm]
  · intro cancel2 now2
    rw [Wait]
  · intro rpm2 h2
    rw [NewLimiter, if_neg (not_le.mpr h2)]
  · rw [wait_some]
    by_cases hel : now - st.lastRequest < st.interval
    · rw [if_pos hel]
      have hw : 0 < st.interval - (now - st.lastRequest) := by omega
      rw [if_pos hw]
      cases cancel
      · exact ⟨_, rfl,
          (show st.lastRequest + st.interval ≤ now + (st.interval - (now - st.lastRequest))
            from by omega),
          fun _ =>
            (show now + (st.interval - (now - st.lastRequest)) = st.lastRequest + st.interval
              from by omega)⟩
      · exact ⟨_, rfl,
          (show st.lastRequest + st.interval ≤ now + (st.interval - (now - st.lastRequest))
            from by omega),
          fun _ =>
            (show now + (st.interval - (now - st.lastRequest)) = st.lastRequest + st.interval
              from by omega)⟩
    · rw [if_neg hel, if_neg (show ¬ (0:Int) < 0 from by omega)]
      exact ⟨_, rfl,
        (show st.lastRequest + st.interval ≤ now + 0 from by omega),
        fun h => absurd h hel⟩
  · intro hel
    rw [wait_some, if_pos hel, if_pos (show (0:Int) < st.interval - (now - st.lastRequest) by omega)]
    simp
  · intro hel
    rw [wait_some, if_neg (show ¬ now - st.lastRequest < st.interval by omega),
      if_neg (show ¬ (0:Int) < 0 from by omega)]
    simp

/-- C9 witness: rpm 60 gives a 1s interval; a second call 0.5s after the
reserved slot is pushed to exactly one interval later and, cancelled,
returns the cancellation result; with the slot free and the token
cancelled, success is returned at once. -/
theorem wait_spec_witness :
    NewLimiter 0 = none ∧
    (Wait (some ⟨1000000000, 1000000000⟩) true 1500000000).1 = WaitRes.canceled ∧
    Wait (some ⟨1000000000, 0⟩) true 2000000000
      = (.ok, some ⟨1000000000, 2000000000⟩, 0) := by
  have h := wait_spec 0 ⟨1000000000, 1000000000⟩ true 1500000000 le_rfl
  have h2 := wait_spec 0 ⟨1000000000, 0⟩ true 2000000000 le_rfl
  exact ⟨h.1, h.2.2.2.2.1 (by norm_num), h2.2.2.2.2.2 (by norm_num)⟩

end PerplexityCli
